import Mathlib

/-!
Verification of the agentic-telegram-assistant repository (Go).

This file shallowly embeds the repository's core logic:

* `pkg/types/types.go` — the data model (`AIResponse`, `AIAction`,
  `CalendarEvent`, `Interaction`);
* `pkg/database` — the conversation store (`AddInteraction`,
  `GetUserInteractions`, `GetUserContext`, `saveInteractions`,
  `loadInteractions`);
* `pkg/ai` — the orchestrator (`OpenAIService.ProcessMessage` post-processing,
  `Agent.ProcessUserMessage`, `Agent.executeAIAction`);
* `pkg/telegram/bot.go` — the long-message splitter (`SendMessage`,
  `sendLongMessage`).

Go machine integers are modelled as `Int`/`Nat`; `time.Time` values are
modelled as abstract `Nat` instants (minutes for event clock rendering,
opaque ticks for interaction timestamps).  Network collaborators (OpenAI,
Google Calendar, the Telegram transport) are modelled as oracles supplied in
an environment record; the traces of gateway calls and sink sends are made
explicit so that call-count claims can be stated.  Fallible Go functions
return `Except String`.
-/

/-- `types.Interaction` from `pkg/types/types.go`.  The Go `time.Time`
timestamp is modelled as an abstract `Nat` tick. -/
structure Interaction where
  UserID : Int
  Timestamp : Nat
  UserMessage : String
  AIResponse : String
  Action : String
deriving DecidableEq, Repr

/-- `types.AIAction` from `pkg/types/types.go`: one entry of a multi-action
request. -/
structure AIAction where
  Action : String
  EventDate : String
  EventTitle : String
  EventTime : String
  EventDesc : String
  EventLoc : String
deriving DecidableEq, Repr

/-- `types.AIResponse` from `pkg/types/types.go`: the classifier's structured
decision. -/
structure AIResponse where
  Action : String
  Message : String
  EventID : String
  EventTitle : String
  EventDate : String
  EventTime : String
  EventDesc : String
  EventLoc : String
  Actions : List AIAction
deriving DecidableEq, Repr

/-- `types.CalendarEvent` from `pkg/types/types.go`.  `Start`/`End` are
modelled as minutes since midnight (only their `Format("15:04")` rendering is
observable in the orchestrator). -/
structure CalendarEvent where
  ID : String
  Summary : String
  Description : String
  Start : Nat
  EndT : Nat
  Location : String
deriving DecidableEq, Repr

/-! ### Decimal rendering of numerals

`fmt.Sprintf("%d", n)` and `strconv`-style integer text, written with a fuel
parameter so that the kernel can evaluate them on concrete inputs. -/

/-- The ASCII digit character for `n < 10`. -/
def digitChar (n : Nat) : Char := Char.ofNat (48 + n)

/-- Decimal digits of `n`, most significant first; `fuel`-bounded recursion
(`fuel > n` suffices). -/
def encNatAux : Nat → Nat → List Char
  | 0, _ => []
  | fuel + 1, n =>
    if n < 10 then [digitChar n]
    else encNatAux fuel (n / 10) ++ [digitChar (n % 10)]

/-- Decimal digits of `n`, most significant first. -/
def encNat (n : Nat) : List Char := encNatAux (n + 1) n

/-- `fmt.Sprintf("%d", n)` for a nonnegative integer. -/
def natToStr (n : Nat) : String := ⟨encNat n⟩

/-- `strconv.FormatInt` for a (possibly negative) integer. -/
def encInt (i : Int) : List Char :=
  if i < 0 then '-' :: encNat i.natAbs else encNat i.toNat

/-- One decimal digit back from its ASCII character. -/
def decDigit (c : Char) : Option Nat :=
  if 48 ≤ c.toNat ∧ c.toNat ≤ 57 then some (c.toNat - 48) else none

/-- Accumulating decimal parse (the body of `strconv.ParseUint`). -/
def decNatAux : Nat → List Char → Option Nat
  | acc, [] => some acc
  | acc, c :: cs =>
    match decDigit c with
    | some d => decNatAux (acc * 10 + d) cs
    | none => none

/-- Parse a nonempty decimal digit string. -/
def decNat (l : List Char) : Option Nat :=
  match l with
  | [] => none
  | _ :: _ => decNatAux 0 l

/-- `strconv.ParseInt`: optional leading minus sign, then digits. -/
def decInt (l : List Char) : Option Int :=
  match l with
  | [] => none
  | c :: rest =>
    if c = '-' then (decNat rest).map (fun n => -(n : Int))
    else (decNat (c :: rest)).map (fun n => (n : Int))

/-! ### The conversation store (`pkg/database`)

The Go `Database` holds `interactions map[int64][]types.Interaction`; the map
is modelled as an association list (one entry per user id). -/

/-- The in-memory table `Database.interactions`. -/
def DBMap : Type := List (Int × List Interaction)

instance : DecidableEq DBMap := inferInstanceAs (DecidableEq (List (Int × List Interaction)))

/-- `d.interactions[userID]`: Go map lookup, defaulting to the empty (nil)
slice. -/
def lookupUser : DBMap → Int → List Interaction
  | [], _ => []
  | (k, v) :: rest, u => if k = u then v else lookupUser rest u

/-- `d.interactions[userID] = xs`: Go map update. -/
def setUser : DBMap → Int → List Interaction → DBMap
  | [], u, xs => [(u, xs)]
  | (k, v) :: rest, u, xs =>
    if k = u then (u, xs) :: rest else (k, v) :: setUser rest u xs

/-- `Database.AddInteraction` (part_000 lines 43–70): append the new
interaction to the user's slice, then keep only the last 50 entries.  The
persistence step is modelled separately (`saveInteractions`); its error is
only logged by callers. -/
def AddInteraction (m : DBMap) (userID : Int) (now : Nat)
    (userMessage aiResponse action : String) : DBMap :=
  let i : Interaction :=
    { UserID := userID, Timestamp := now, UserMessage := userMessage,
      AIResponse := aiResponse, Action := action }
  let xs := lookupUser m userID ++ [i]
  let xs := if xs.length > 50 then xs.drop (xs.length - 50) else xs
  setUser m userID xs

/-- `Database.GetUserInteractions` (part_000 lines 73–88). -/
def GetUserInteractions (m : DBMap) (userID : Int) (limit : Int) : List Interaction :=
  let interactions := lookupUser m userID
  if interactions.length = 0 then []
  else if 0 < limit ∧ limit < (interactions.length : Int) then
    interactions.drop (interactions.length - limit.toNat)
  else interactions

/-- The `fmt.Sprintf("User: %s\nAI: %s\n\n", …)` line of
`Database.GetUserContext`. -/
def contextLine (i : Interaction) : String :=
  "User: " ++ i.UserMessage ++ "\nAI: " ++ i.AIResponse ++ "\n\n"

/-- Left-to-right string concatenation (the `context += …` loop). -/
def strJoin : List String → String
  | [] => ""
  | s :: rest => s ++ strJoin rest

/-- `Database.GetUserContext` (part_000 lines 91–103). -/
def GetUserContext (m : DBMap) (userID : Int) (messageCount : Int) : String :=
  let interactions := GetUserInteractions m userID messageCount
  if interactions.length = 0 then ""
  else strJoin (interactions.map contextLine)

/-- One `AddInteraction` call's arguments, for reasoning about call
sequences. -/
structure AddOp where
  userID : Int
  now : Nat
  userMessage : String
  aiResponse : String
  action : String

/-- Apply a sequence of `AddInteraction` calls in order. -/
def applyAdds (m : DBMap) : List AddOp → DBMap
  | [] => m
  | op :: ops =>
    applyAdds (AddInteraction m op.userID op.now op.userMessage op.aiResponse op.action) ops

/-! Store lemmas. -/

theorem lookupUser_setUser_self (m : DBMap) (u : Int) (xs : List Interaction) :
    lookupUser (setUser m u xs) u = xs := by
  induction m with
  | nil => simp [setUser, lookupUser]
  | cons p rest ih =>
    obtain ⟨k, v⟩ := p
    by_cases h : k = u
    · simp [setUser, h, lookupUser]
    · simp [setUser, h, lookupUser, ih]

theorem lookupUser_setUser_other (m : DBMap) (u v : Int) (xs : List Interaction)
    (huv : v ≠ u) : lookupUser (setUser m u xs) v = lookupUser m v := by
  have huv' : ¬(u = v) := fun h => huv h.symm
  induction m with
  | nil => simp [setUser, lookupUser, huv']
  | cons p rest ih =>
    obtain ⟨k, w⟩ := p
    by_cases h : k = u
    · subst h
      simp [setUser, lookupUser, huv']
    · simp [setUser, lookupUser, h, ih]

theorem lookupUser_AddInteraction_self (m : DBMap) (u : Int) (t : Nat)
    (um ar a : String) :
    lookupUser (AddInteraction m u t um ar a) u =
      (let xs := lookupUser m u ++
        [{ UserID := u, Timestamp := t, UserMessage := um, AIResponse := ar, Action := a }]
       if xs.length > 50 then xs.drop (xs.length - 50) else xs) := by
  unfold AddInteraction
  exact lookupUser_setUser_self ..

theorem length_lookupUser_AddInteraction (m : DBMap) (u : Int) (t : Nat)
    (um ar a : String) :
    (lookupUser (AddInteraction m u t um ar a) u).length ≤ 50 := by
  rw [lookupUser_AddInteraction_self]
  set xs := lookupUser m u ++
    [{ UserID := u, Timestamp := t, UserMessage := um, AIResponse := ar, Action := a }] with hxs
  by_cases h : xs.length > 50
  · simp only [h, if_pos, List.length_drop]
    omega
  · simp only [h, if_neg, not_false_iff]
    omega

theorem lookupUser_AddInteraction_other (m : DBMap) (uid u : Int) (t : Nat)
    (um ar a : String) (h : u ≠ uid) :
    lookupUser (AddInteraction m uid t um ar a) u = lookupUser m u := by
  unfold AddInteraction
  exact lookupUser_setUser_other _ _ _ _ h

theorem applyAdds_bound (ops : List AddOp) (m : DBMap)
    (hm : ∀ u, (lookupUser m u).length ≤ 50) :
    ∀ u, (lookupUser (applyAdds m ops) u).length ≤ 50 := by
  induction ops generalizing m with
  | nil => exact hm
  | cons op ops ih =>
    refine ih _ (fun u => ?_)
    by_cases h : u = op.userID
    · subst h
      exact length_lookupUser_AddInteraction ..
    · rw [lookupUser_AddInteraction_other _ _ _ _ _ _ _ h]
      exact hm u

/-- C2: appending never lets a user's history exceed 50 interactions; at
exactly 50, appending evicts the oldest entry and keeps the most recent 50 in
order; consequently every sequence of `AddInteraction` calls starting from
the empty store keeps every user at 50 interactions or fewer. -/
theorem AddInteraction_cap_50 :
    (∀ m u t um ar a, (lookupUser (AddInteraction m u t um ar a) u).length ≤ 50) ∧
    (∀ m u t um ar a, (lookupUser m u).length = 50 →
      lookupUser (AddInteraction m u t um ar a) u =
        (lookupUser m u).drop 1 ++
          [{ UserID := u, Timestamp := t, UserMessage := um,
             AIResponse := ar, Action := a }]) ∧
    (∀ ops u, (lookupUser (applyAdds [] ops) u).length ≤ 50) := by
  refine ⟨fun m u t um ar a => length_lookupUser_AddInteraction m u t um ar a,
    fun m u t um ar a h50 => ?_,
    fun ops u => applyAdds_bound ops [] (fun _ => by simp [lookupUser]) u⟩
  rw [lookupUser_AddInteraction_self]
  simp only [List.length_append, List.length_cons, List.length_nil, h50]
  norm_num
  have hnil : lookupUser m u ≠ [] := by
    intro h
    rw [h] at h50
    simp at h50
  obtain ⟨x, xs, hx⟩ := List.exists_cons_of_ne_nil hnil
  rw [hx]
  simp

/-- Witness for `AddInteraction_cap_50`: a store holding exactly 50
interactions for user 0. -/
def dbAt50 : DBMap :=
  [(0, List.replicate 50
    { UserID := 0, Timestamp := 0, UserMessage := "m", AIResponse := "r", Action := "" })]

theorem AddInteraction_cap_50_witness :
    lookupUser (AddInteraction dbAt50 0 7 "hi" "yo" "getEvents") 0 =
      (lookupUser dbAt50 0).drop 1 ++
        [{ UserID := 0, Timestamp := 7, UserMessage := "hi",
           AIResponse := "yo", Action := "getEvents" }] :=
  AddInteraction_cap_50.2.1 dbAt50 0 7 "hi" "yo" "getEvents"
    (by simp [dbAt50, lookupUser])

/-- C7: `GetUserContext` returns the empty string when the user has no
interactions, all interactions (oldest first, "User:/AI:" formatted) when the
requested count is zero or negative, and exactly the last `min n count`
interactions when the count `n` is positive. -/
theorem GetUserContext_spec (m : DBMap) (u : Int) (n : Int) :
    (lookupUser m u = [] → GetUserContext m u n = "") ∧
    (n ≤ 0 → GetUserContext m u n = strJoin ((lookupUser m u).map contextLine)) ∧
    (0 < n → GetUserContext m u n =
      strJoin (((lookupUser m u).drop
        ((lookupUser m u).length - min n.toNat (lookupUser m u).length)).map
          contextLine)) := by
  refine ⟨?_, ?_, ?_⟩
  · intro h
    simp [GetUserContext, GetUserInteractions, h]
  · intro hn
    have hcond : ¬(0 < n ∧ n < ((lookupUser m u).length : Int)) := by omega
    by_cases h0 : (lookupUser m u).length = 0
    · have he : lookupUser m u = [] := List.length_eq_zero.mp h0
      simp [GetUserContext, GetUserInteractions, he, strJoin]
    · simp [GetUserContext, GetUserInteractions, h0, hcond]
  · intro hn
    by_cases h0 : (lookupUser m u).length = 0
    · have he : lookupUser m u = [] := List.length_eq_zero.mp h0
      simp [GetUserContext, GetUserInteractions, he, strJoin]
    · by_cases hlt : n < ((lookupUser m u).length : Int)
      · have hmin : min n.toNat (lookupUser m u).length = n.toNat :=
          Nat.min_eq_left (by omega)
        have hne : ¬(((lookupUser m u).drop
            ((lookupUser m u).length - n.toNat)).length = 0) := by
          rw [List.length_drop]
          omega
        have hGI : GetUserInteractions m u n =
            (lookupUser m u).drop ((lookupUser m u).length - n.toNat) := by
          simp [GetUserInteractions, h0, hn, hlt]
        rw [hmin]
        simp only [GetUserContext, hGI]
        rw [if_neg hne]
      · have hmin : min n.toNat (lookupUser m u).length = (lookupUser m u).length :=
          Nat.min_eq_right (by omega)
        have hcond : ¬(0 < n ∧ n < ((lookupUser m u).length : Int)) := by omega
        simp [GetUserContext, GetUserInteractions, h0, hcond, hmin]

/-- Witness for `GetUserContext_spec`: a two-interaction history queried with
`n = 1`. -/
def dbTwo : DBMap :=
  [(4, [{ UserID := 4, Timestamp := 1, UserMessage := "a", AIResponse := "b", Action := "" },
        { UserID := 4, Timestamp := 2, UserMessage := "c", AIResponse := "d", Action := "" }])]

theorem GetUserContext_spec_witness :
    GetUserContext dbTwo 4 1 =
      strJoin (((lookupUser dbTwo 4).drop
        ((lookupUser dbTwo 4).length - min (1 : Int).toNat (lookupUser dbTwo 4).length)).map
          contextLine) :=
  (GetUserContext_spec dbTwo 4 1).2.2 (by decide)

/-! ### The orchestrator (`pkg/ai`)

The OpenAI client, the Google Calendar SDK and the Telegram transport are
network collaborators; they are modelled as oracles in an environment
record, and the calls the agent makes to them are collected in explicit
traces. -/

/-- One call made to the calendar gateway (`calendar.Service`). -/
inductive GatewayCall where
  | getEvents (dateStr : String)
  | createEvent (title dateStr timeStr description location : String)
  | updateEvent (eventID title dateStr timeStr description location : String)
  | deleteEvent (eventID : String)
deriving DecidableEq, Repr

/-- The calendar gateway as an oracle: the outcome of each possible call.
Mirrors the signatures of `calendar.Service.GetEvents` / `CreateEvent` /
`UpdateEvent` / `DeleteEvent` (part_000 lines 249–447). -/
structure CalendarOracle where
  getEvents : String → Except String (List CalendarEvent)
  createEvent : String → String → String → String → String → Except String Unit
  updateEvent : String → String → String → String → String → String → Except String Unit
  deleteEvent : String → Except String Unit

/-- `calendar.Service.GetEvents` date normalisation (part_000 lines 254–257):
an empty date string defaults to `"today"`. -/
def getEventsDateArg (dateStr : String) : String :=
  if dateStr = "" then "today" else dateStr

/-- Two-digit zero-padded rendering used by Go's `Format("15:04")`. -/
def pad2 (n : Nat) : String := if n < 10 then "0" ++ natToStr n else natToStr n

/-- `time.Time.Format("15:04")` on an instant modelled as minutes since
midnight. -/
def formatClock (t : Nat) : String := pad2 (t / 60 % 24) ++ ":" ++ pad2 (t % 60)

/-- One `• {title} ({start} - {end})[ - {location}]` line of the event
listing (part_001 lines 229–238 / 276–285), including its trailing
newline. -/
def renderEventLine (e : CalendarEvent) : String :=
  "• " ++ e.Summary ++ " (" ++ formatClock e.Start ++ " - " ++ formatClock e.EndT ++ ")" ++
    (if e.Location ≠ "" then " - " ++ e.Location else "") ++ "\n"

/-- Concatenation of a list of lists (the accumulated gateway-call trace). -/
def catLists : List (List α) → List α
  | [] => []
  | l :: ls => l ++ catLists ls

/-- One iteration of the multi-action loop of `Agent.executeAIAction`
(part_001 lines 207–248): the result block appended to the response and the
gateway calls made.  Only `getEvents` is supported; any other action kind
produces an `Unknown action` line. -/
def execSubAction (cal : CalendarOracle) (action : AIAction) : String × List GatewayCall :=
  match action.Action with
  | "getEvents" =>
    match cal.getEvents action.EventDate with
    | .error e =>
      ("Error getting events for " ++ action.EventDate ++ ": " ++ e ++ "\n",
       [.getEvents action.EventDate])
    | .ok events =>
      if events.length = 0 then
        ("No events found for " ++ action.EventDate ++ ".\n", [.getEvents action.EventDate])
      else
        let maxEvents : Nat := 15
        let eventsToShow := events.take maxEvents
        let header :=
          if events.length > maxEvents then
            "Events for " ++ action.EventDate ++ " (showing first " ++ natToStr maxEvents ++
              " of " ++ natToStr events.length ++ "):\n"
          else
            "Events for " ++ action.EventDate ++ ":\n"
        let body := strJoin (eventsToShow.map renderEventLine)
        let note :=
          if events.length > maxEvents then
            "... and " ++ natToStr (events.length - maxEvents) ++ " more events.\n"
          else ""
        (header ++ body ++ note ++ "\n", [.getEvents action.EventDate])
  | other => ("Unknown action: " ++ other ++ "\n", [])

/-- `Agent.executeAIAction` (part_001 lines 197–354): the action-dispatch
state machine.  Returns the response text and the trace of gateway calls; the
Go function's `error` return is always `nil` (its only return statement is
`return response, nil`). -/
def executeAIAction (cal : CalendarOracle) (aiResponse : AIResponse) :
    String × List GatewayCall :=
  if aiResponse.Actions.length > 0 then
    let steps := aiResponse.Actions.map (execSubAction cal)
    (aiResponse.Message ++ "\n\n" ++ strJoin (steps.map Prod.fst),
     catLists (steps.map Prod.snd))
  else
    match aiResponse.Action with
    | "getEvents" =>
      match cal.getEvents aiResponse.EventDate with
      | .error e => ("Error getting events: " ++ e, [.getEvents aiResponse.EventDate])
      | .ok events =>
        if events.length = 0 then
          ("No events found for " ++ aiResponse.EventDate ++ ".",
           [.getEvents aiResponse.EventDate])
        else
          let maxEvents : Nat := 20
          let eventsToShow := events.take maxEvents
          let header :=
            if events.length > maxEvents then
              "Events for " ++ aiResponse.EventDate ++ " (showing first " ++
                natToStr maxEvents ++ " of " ++ natToStr events.length ++ "):\n"
            else
              "Events for " ++ aiResponse.EventDate ++ ":\n"
          let body := strJoin (eventsToShow.map renderEventLine)
          let note :=
            if events.length > maxEvents then
              "\n... and " ++ natToStr (events.length - maxEvents) ++
                " more events. Use a more specific date range to see fewer events."
            else ""
          (header ++ body ++ note, [.getEvents aiResponse.EventDate])
    | "makeEvent" =>
      match cal.createEvent aiResponse.EventTitle aiResponse.EventDate aiResponse.EventTime
          aiResponse.EventDesc aiResponse.EventLoc with
      | .error e =>
        ("Error creating event: " ++ e,
         [.createEvent aiResponse.EventTitle aiResponse.EventDate aiResponse.EventTime
            aiResponse.EventDesc aiResponse.EventLoc])
      | .ok _ =>
        ("Event '" ++ aiResponse.EventTitle ++ "' created successfully for " ++
           aiResponse.EventDate ++ " at " ++ aiResponse.EventTime,
         [.createEvent aiResponse.EventTitle aiResponse.EventDate aiResponse.EventTime
            aiResponse.EventDesc aiResponse.EventLoc])
    | "delEvents" =>
      if aiResponse.EventID = "" then
        ("Please specify an event ID to delete. Use 'getEvents' first to see available events.",
         [])
      else
        match cal.deleteEvent aiResponse.EventID with
        | .error e => ("Error deleting event: " ++ e, [.deleteEvent aiResponse.EventID])
        | .ok _ => ("Event deleted successfully.", [.deleteEvent aiResponse.EventID])
    | "updtEvent" =>
      if aiResponse.EventID = "" then
        ("Please specify an event ID to update. Use 'getEvents' first to see available events.",
         [])
      else
        match cal.updateEvent aiResponse.EventID aiResponse.EventTitle aiResponse.EventDate
            aiResponse.EventTime aiResponse.EventDesc aiResponse.EventLoc with
        | .error e =>
          ("Error updating event: " ++ e,
           [.updateEvent aiResponse.EventID aiResponse.EventTitle aiResponse.EventDate
              aiResponse.EventTime aiResponse.EventDesc aiResponse.EventLoc])
        | .ok _ =>
          ("Event updated successfully.",
           [.updateEvent aiResponse.EventID aiResponse.EventTitle aiResponse.EventDate
              aiResponse.EventTime aiResponse.EventDesc aiResponse.EventLoc])
    | "None" => (aiResponse.Message, [])
    | "message" => (aiResponse.Message, [])
    | _ => (aiResponse.Message, [])

/-- The validation step at the end of `OpenAIService.ProcessMessage`
(part_001 lines 109–114): a `getEvents` intent without a date defaults to
`"today"`. -/
def aiValidate (r : AIResponse) : AIResponse :=
  if r.Action = "getEvents" ∧ r.EventDate = "" then { r with EventDate := "today" } else r

/-- The JSON-parse fallback of `OpenAIService.ProcessMessage` (part_001
lines 100–107): unparseable classifier output degrades to a plain message. -/
def aiFallback (content : String) : AIResponse :=
  { Action := "message", Message := content, EventID := "", EventTitle := "",
    EventDate := "", EventTime := "", EventDesc := "", EventLoc := "", Actions := [] }

/-- The environment of one `Agent.ProcessUserMessage` run: the outcomes of
every external call it may make.  `chat context message` is the OpenAI chat
completion (`.error` for an API failure or an empty choice list; `.ok`
carries the `json.Unmarshal` result of the returned content — `none` when the
content is not valid JSON — together with the raw content).  `persist` is the
outcome of the durable write inside `Database.AddInteraction`; `send text` is
the outcome of `telegram.Bot.SendMessage`. -/
structure PEnv where
  chat : String → String → Except String (Option AIResponse × String)
  now : Nat
  persist : Except String Unit
  cal : CalendarOracle
  send : String → Except String Unit

/-- `OpenAIService.ProcessMessage` (part_001 lines 28–117), given the chat
oracle: wrap transport errors, fall back to a plain message on a parse
failure, then validate. -/
def ProcessMessage (env : PEnv) (userContext message : String) : Except String AIResponse :=
  match env.chat userContext message with
  | .error e => .error ("OpenAI API error: " ++ e)
  | .ok (parsed, content) => .ok (aiValidate (parsed.getD (aiFallback content)))

/-- The observable outcome of one `Agent.ProcessUserMessage` run. -/
structure RunResult where
  ret : Except String Unit
  response : String
  sends : List String
  calls : List GatewayCall
  db : DBMap

/-- The generic apology sent when classification fails (part_001 line 158). -/
def classifyFailedMsg : String :=
  "Sorry, I encountered an error processing your request. Please try again."

/-- `Agent.ProcessUserMessage` (part_001 lines 148–194).  On a classification
error: send the generic apology (a failure of that send is only logged) and
return the classification error.  Otherwise: store the interaction (a
persistence failure is only logged), execute the action (whose Go error
return is always `nil`), send the response, and return the outcome of that
send.  `sends` records every text passed to `telegramBot.SendMessage`;
`calls` records every calendar-gateway call. -/
def ProcessUserMessage (env : PEnv) (db : DBMap) (userID chatID : Int)
    (message : String) : RunResult :=
  let userContext := GetUserContext db userID 10
  match ProcessMessage env userContext message with
  | .error e =>
    { ret := .error e, response := classifyFailedMsg, sends := [classifyFailedMsg],
      calls := [], db := db }
  | .ok aiResponse =>
    let db2 := AddInteraction db userID env.now message aiResponse.Message aiResponse.Action
    let res := executeAIAction env.cal aiResponse
    { ret := match env.send res.fst with
             | .error e => .error e
             | .ok _ => .ok (),
      response := res.fst, sends := [res.fst], calls := res.snd, db := db2 }

/-! Dispatch lemmas. -/

theorem aiValidate_Action (r : AIResponse) : (aiValidate r).Action = r.Action := by
  unfold aiValidate
  split <;> rfl

theorem aiValidate_Message (r : AIResponse) : (aiValidate r).Message = r.Message := by
  unfold aiValidate
  split <;> rfl

theorem aiValidate_Actions (r : AIResponse) : (aiValidate r).Actions = r.Actions := by
  unfold aiValidate
  split <;> rfl

theorem aiValidate_of_ne (r : AIResponse) (h : ¬r.Action = "getEvents") :
    aiValidate r = r := by
  unfold aiValidate
  rw [if_neg (fun hc => h hc.1)]

theorem ProcessMessage_parsed (env : PEnv) (ctx msg content : String) (r : AIResponse)
    (hchat : env.chat ctx msg = .ok (some r, content)) :
    ProcessMessage env ctx msg = .ok (aiValidate r) := by
  unfold ProcessMessage
  rw [hchat]
  rfl

theorem execSubAction_calls (cal : CalendarOracle) (a : AIAction)
    (h : a.Action = "getEvents") :
    (execSubAction cal a).snd = [.getEvents a.EventDate] := by
  unfold execSubAction
  rw [h]
  cases hg : cal.getEvents a.EventDate with
  | error e => rfl
  | ok events =>
    by_cases hz : events.length = 0 <;> simp [hz]

theorem execSubAction_unknown (cal : CalendarOracle) (a : AIAction)
    (h : ¬a.Action = "getEvents") :
    execSubAction cal a = ("Unknown action: " ++ a.Action ++ "\n", []) := by
  unfold execSubAction
  split
  · next heq => exact absurd heq h
  · rfl

theorem execSubAction_error (cal : CalendarOracle) (a : AIAction) (e : String)
    (h : a.Action = "getEvents") (hg : cal.getEvents a.EventDate = .error e) :
    execSubAction cal a =
      ("Error getting events for " ++ a.EventDate ++ ": " ++ e ++ "\n",
       [.getEvents a.EventDate]) := by
  unfold execSubAction
  rw [h, hg]
  rfl

/-- C9: whenever the single-action `getEvents` dispatch receives zero events
from the gateway, the response text is exactly
`"No events found for {date}."` with the intent's event date substituted. -/
theorem executeAIAction_no_events (cal : CalendarOracle) (r : AIResponse)
    (hA : r.Actions = []) (hg : r.Action = "getEvents")
    (he : cal.getEvents r.EventDate = .ok []) :
    (executeAIAction cal r).fst = "No events found for " ++ r.EventDate ++ "." := by
  unfold executeAIAction
  rw [hA]
  simp only [List.length_nil, gt_iff_lt, lt_irrefl, if_false]
  rw [hg, he]
  rfl

/-- Witness for `executeAIAction_no_events`. -/
def calNoEvents : CalendarOracle :=
  { getEvents := fun _ => .ok [], createEvent := fun _ _ _ _ _ => .ok (),
    updateEvent := fun _ _ _ _ _ _ => .ok (), deleteEvent := fun _ => .ok () }

/-- Witness intent: plain single-action `getEvents` for `"tomorrow"`. -/
def rTomorrow : AIResponse :=
  { Action := "getEvents", Message := "ok", EventID := "", EventTitle := "",
    EventDate := "tomorrow", EventTime := "", EventDesc := "", EventLoc := "",
    Actions := [] }

theorem executeAIAction_no_events_witness :
    (executeAIAction calNoEvents rTomorrow).fst = "No events found for " ++ "tomorrow" ++ "." :=
  executeAIAction_no_events calNoEvents rTomorrow rfl rfl rfl

theorem ProcessUserMessage_ok (env : PEnv) (db : DBMap) (u c : Int) (msg : String)
    (r : AIResponse)
    (hPM : ProcessMessage env (GetUserContext db u 10) msg = .ok r) :
    ProcessUserMessage env db u c msg =
      { ret := match env.send (executeAIAction env.cal r).fst with
               | .error e => .error e
               | .ok _ => .ok (),
        response := (executeAIAction env.cal r).fst,
        sends := [(executeAIAction env.cal r).fst],
        calls := (executeAIAction env.cal r).snd,
        db := AddInteraction db u env.now msg r.Message r.Action } := by
  unfold ProcessUserMessage
  simp only [hPM]

theorem executeAIAction_del_empty (cal : CalendarOracle) (r : AIResponse)
    (hA : r.Actions = []) (hact : r.Action = "delEvents") (hid : r.EventID = "") :
    executeAIAction cal r =
      ("Please specify an event ID to delete. Use 'getEvents' first to see available events.",
       []) := by
  unfold executeAIAction
  rw [hA]
  simp only [List.length_nil, gt_iff_lt, lt_irrefl, if_false]
  rw [hact]
  simp only [hid, if_pos]

theorem executeAIAction_updt_empty (cal : CalendarOracle) (r : AIResponse)
    (hA : r.Actions = []) (hact : r.Action = "updtEvent") (hid : r.EventID = "") :
    executeAIAction cal r =
      ("Please specify an event ID to update. Use 'getEvents' first to see available events.",
       []) := by
  unfold executeAIAction
  rw [hA]
  simp only [List.length_nil, gt_iff_lt, lt_irrefl, if_false]
  rw [hact]
  simp only [hid, if_pos]

/-- C5: an `UpdateEvent` or `DeleteEvent` intent with an empty `event_id`
makes no calendar gateway call and responds with the "use getEvents first"
instruction text. -/
theorem empty_event_id_no_gateway (env : PEnv) (db : DBMap) (u c : Int)
    (msg content : String) (r : AIResponse)
    (hchat : env.chat (GetUserContext db u 10) msg = .ok (some r, content))
    (hA : r.Actions = []) (hid : r.EventID = "") :
    (r.Action = "delEvents" →
      (ProcessUserMessage env db u c msg).calls = [] ∧
      (ProcessUserMessage env db u c msg).response =
        "Please specify an event ID to delete. Use 'getEvents' first to see available events." ∧
      (ProcessUserMessage env db u c msg).sends =
        ["Please specify an event ID to delete. Use 'getEvents' first to see available events."]) ∧
    (r.Action = "updtEvent" →
      (ProcessUserMessage env db u c msg).calls = [] ∧
      (ProcessUserMessage env db u c msg).response =
        "Please specify an event ID to update. Use 'getEvents' first to see available events." ∧
      (ProcessUserMessage env db u c msg).sends =
        ["Please specify an event ID to update. Use 'getEvents' first to see available events."]) := by
  constructor
  · intro hact
    have hv : aiValidate r = r := aiValidate_of_ne r (by rw [hact]; decide)
    have hPM : ProcessMessage env (GetUserContext db u 10) msg = .ok r := by
      rw [ProcessMessage_parsed env _ msg content r hchat, hv]
    rw [ProcessUserMessage_ok env db u c msg r hPM]
    rw [executeAIAction_del_empty env.cal r hA hact hid]
    exact ⟨rfl, rfl, rfl⟩
  · intro hact
    have hv : aiValidate r = r := aiValidate_of_ne r (by rw [hact]; decide)
    have hPM : ProcessMessage env (GetUserContext db u 10) msg = .ok r := by
      rw [ProcessMessage_parsed env _ msg content r hchat, hv]
    rw [ProcessUserMessage_ok env db u c msg r hPM]
    rw [executeAIAction_updt_empty env.cal r hA hact hid]
    exact ⟨rfl, rfl, rfl⟩

/-- Witness environment: the classifier returns a `delEvents` intent with no
event id. -/
def rDelNoID : AIResponse :=
  { Action := "delEvents", Message := "deleting", EventID := "", EventTitle := "",
    EventDate := "", EventTime := "", EventDesc := "", EventLoc := "", Actions := [] }

def envDelNoID : PEnv :=
  { chat := fun _ _ => .ok (some rDelNoID, "raw"), now := 3, persist := .ok (),
    cal := calNoEvents, send := fun _ => .ok () }

theorem empty_event_id_no_gateway_witness :
    (ProcessUserMessage envDelNoID [] 1 2 "drop it").calls = [] ∧
    (ProcessUserMessage envDelNoID [] 1 2 "drop it").response =
      "Please specify an event ID to delete. Use 'getEvents' first to see available events." ∧
    (ProcessUserMessage envDelNoID [] 1 2 "drop it").sends =
      ["Please specify an event ID to delete. Use 'getEvents' first to see available events."] :=
  (empty_event_id_no_gateway envDelNoID [] 1 2 "drop it" "raw" rDelNoID rfl rfl rfl).1 rfl

theorem executeAIAction_getEvents_calls (cal : CalendarOracle) (r : AIResponse)
    (hA : r.Actions = []) (hg : r.Action = "getEvents") :
    (executeAIAction cal r).snd = [.getEvents r.EventDate] := by
  unfold executeAIAction
  rw [hA]
  simp only [List.length_nil, gt_iff_lt, lt_irrefl, if_false]
  rw [hg]
  cases hc : cal.getEvents r.EventDate with
  | error e => rfl
  | ok events =>
    by_cases hz : events.length = 0 <;> simp [hz]

/-- C6: when the classifier returns a `getEvents` intent with an empty
`event_date`, the gateway call that follows is made with the date expression
`"today"` (the defaulting happens in `OpenAIService.ProcessMessage`; the
gateway's own `GetEvents` normalises an empty date the same way). -/
theorem empty_date_defaults_today (env : PEnv) (db : DBMap) (u c : Int)
    (msg content : String) (r : AIResponse)
    (hchat : env.chat (GetUserContext db u 10) msg = .ok (some r, content))
    (hg : r.Action = "getEvents") (hd : r.EventDate = "") (hA : r.Actions = []) :
    (ProcessUserMessage env db u c msg).calls = [GatewayCall.getEvents "today"] ∧
    getEventsDateArg "" = "today" := by
  have hv : aiValidate r = { r with EventDate := "today" } := by
    unfold aiValidate
    rw [if_pos ⟨hg, hd⟩]
  have hPM : ProcessMessage env (GetUserContext db u 10) msg =
      .ok ({ r with EventDate := "today" }) := by
    rw [ProcessMessage_parsed env _ msg content r hchat, hv]
  rw [ProcessUserMessage_ok env db u c msg _ hPM]
  exact ⟨executeAIAction_getEvents_calls env.cal _ hA hg, rfl⟩

/-- Witness: a classifier output `{action: "getEvents", event_date: ""}`. -/
def rNoDate : AIResponse :=
  { Action := "getEvents", Message := "on it", EventID := "", EventTitle := "",
    EventDate := "", EventTime := "", EventDesc := "", EventLoc := "", Actions := [] }

def envNoDate : PEnv :=
  { chat := fun _ _ => .ok (some rNoDate, "raw"), now := 3, persist := .ok (),
    cal := calNoEvents, send := fun _ => .ok () }

theorem empty_date_defaults_today_witness :
    (ProcessUserMessage envNoDate [] 1 2 "events?").calls = [GatewayCall.getEvents "today"] ∧
    getEventsDateArg "" = "today" :=
  empty_date_defaults_today envNoDate [] 1 2 "events?" "raw" rNoDate rfl rfl rfl rfl

theorem executeAIAction_multi (cal : CalendarOracle) (r : AIResponse)
    (h : 0 < r.Actions.length) :
    executeAIAction cal r =
      (r.Message ++ "\n\n" ++ strJoin ((r.Actions.map (execSubAction cal)).map Prod.fst),
       catLists ((r.Actions.map (execSubAction cal)).map Prod.snd)) := by
  unfold executeAIAction
  rw [if_pos h]

/-- C3: a multi-action intent with three `getEvents` sub-intents, the second
of which fails with a calendar error, still yields three per-step result
blocks (the failing one rendered as an inline error line), makes all three
gateway calls, and results in exactly one notification-sink send holding the
top-level message followed by the concatenated blocks; a sub-intent whose
action kind is not `getEvents` yields an "Unknown action" line and no
gateway call. -/
theorem multi_action_inline_error (env : PEnv) (db : DBMap) (u c : Int)
    (msg content : String) (r : AIResponse) (a1 a2 a3 : AIAction)
    (l1 l3 : List CalendarEvent) (e : String)
    (hchat : env.chat (GetUserContext db u 10) msg = .ok (some r, content))
    (hActs : r.Actions = [a1, a2, a3])
    (h1 : a1.Action = "getEvents") (h2 : a2.Action = "getEvents")
    (h3 : a3.Action = "getEvents")
    (hc1 : env.cal.getEvents a1.EventDate = .ok l1)
    (hc2 : env.cal.getEvents a2.EventDate = .error e)
    (hc3 : env.cal.getEvents a3.EventDate = .ok l3) :
    (ProcessUserMessage env db u c msg).sends =
      [r.Message ++ "\n\n" ++ strJoin
        [(execSubAction env.cal a1).fst,
         "Error getting events for " ++ a2.EventDate ++ ": " ++ e ++ "\n",
         (execSubAction env.cal a3).fst]] ∧
    (ProcessUserMessage env db u c msg).calls =
      [GatewayCall.getEvents a1.EventDate, GatewayCall.getEvents a2.EventDate,
       GatewayCall.getEvents a3.EventDate] ∧
    (∀ a : AIAction, ¬a.Action = "getEvents" →
      execSubAction env.cal a = ("Unknown action: " ++ a.Action ++ "\n", [])) := by
  have hPM : ProcessMessage env (GetUserContext db u 10) msg = .ok (aiValidate r) :=
    ProcessMessage_parsed env _ msg content r hchat
  rw [ProcessUserMessage_ok env db u c msg _ hPM]
  have hlen : 0 < (aiValidate r).Actions.length := by
    rw [aiValidate_Actions, hActs]
    simp
  rw [executeAIAction_multi env.cal _ hlen, aiValidate_Actions, aiValidate_Message, hActs]
  refine ⟨?_, ?_, fun a ha => execSubAction_unknown env.cal a ha⟩
  · simp only [List.map_cons, List.map_nil, execSubAction_error env.cal a2 e h2 hc2]
  · simp only [List.map_cons, List.map_nil, execSubAction_calls env.cal a1 h1,
      execSubAction_calls env.cal a2 h2, execSubAction_calls env.cal a3 h3]
    rfl

/-- Witness data for `multi_action_inline_error`: three `getEvents`
sub-intents, the gateway failing exactly on `"tue"`. -/
def aDay1 : AIAction :=
  { Action := "getEvents", EventDate := "mon", EventTitle := "", EventTime := "",
    EventDesc := "", EventLoc := "" }

def aDay2 : AIAction :=
  { Action := "getEvents", EventDate := "tue", EventTitle := "", EventTime := "",
    EventDesc := "", EventLoc := "" }

def aDay3 : AIAction :=
  { Action := "getEvents", EventDate := "wed", EventTitle := "", EventTime := "",
    EventDesc := "", EventLoc := "" }

def rMulti : AIResponse :=
  { Action := "None", Message := "three days", EventID := "", EventTitle := "",
    EventDate := "", EventTime := "", EventDesc := "", EventLoc := "",
    Actions := [aDay1, aDay2, aDay3] }

def calFailTue : CalendarOracle :=
  { getEvents := fun d => if d = "tue" then .error "boom" else .ok [],
    createEvent := fun _ _ _ _ _ => .ok (),
    updateEvent := fun _ _ _ _ _ _ => .ok (),
    deleteEvent := fun _ => .ok () }

def envMulti : PEnv :=
  { chat := fun _ _ => .ok (some rMulti, "raw"), now := 0, persist := .ok (),
    cal := calFailTue, send := fun _ => .ok () }

theorem multi_action_inline_error_witness :
    (ProcessUserMessage envMulti [] 1 2 "week?").sends =
      [rMulti.Message ++ "\n\n" ++ strJoin
        [(execSubAction envMulti.cal aDay1).fst,
         "Error getting events for " ++ aDay2.EventDate ++ ": " ++ "boom" ++ "\n",
         (execSubAction envMulti.cal aDay3).fst]] ∧
    (ProcessUserMessage envMulti [] 1 2 "week?").calls =
      [GatewayCall.getEvents aDay1.EventDate, GatewayCall.getEvents aDay2.EventDate,
       GatewayCall.getEvents aDay3.EventDate] ∧
    (∀ a : AIAction, ¬a.Action = "getEvents" →
      execSubAction envMulti.cal a = ("Unknown action: " ++ a.Action ++ "\n", [])) :=
  multi_action_inline_error envMulti [] 1 2 "week?" "raw" rMulti aDay1 aDay2 aDay3
    [] [] "boom" rfl rfl rfl rfl rfl rfl rfl rfl

/-- An environment whose classifier call fails while every transport send
succeeds. -/
def envClassifyFail : PEnv :=
  { chat := fun _ _ => .error "boom", now := 0, persist := .ok (),
    cal := calNoEvents, send := fun _ => .ok () }

/-- C1 counterexample: a run in which every notification send succeeds, yet
`ProcessUserMessage` still returns an error — the classification error — so
a notification-send failure is not the only error the caller can see. -/
theorem classification_error_escapes :
    (ProcessUserMessage envClassifyFail [] 1 2 "hi").ret =
      .error "OpenAI API error: boom" ∧
    (∀ t, envClassifyFail.send t = .ok ()) :=
  ⟨rfl, fun _ => rfl⟩

/-- C1 (amended): every error `ProcessUserMessage` returns is either the
classification error or the failure of the final notification send of the
computed response; when classification and the final send succeed the run
returns no error, whatever the persistence and calendar oracles do. -/
theorem ProcessUserMessage_error_sources (env : PEnv) (db : DBMap) (u c : Int)
    (msg : String) :
    (∀ e, (ProcessUserMessage env db u c msg).ret = .error e →
      ProcessMessage env (GetUserContext db u 10) msg = .error e ∨
      env.send (ProcessUserMessage env db u c msg).response = .error e) ∧
    (∀ r, ProcessMessage env (GetUserContext db u 10) msg = .ok r →
      env.send (ProcessUserMessage env db u c msg).response = .ok () →
      (ProcessUserMessage env db u c msg).ret = .ok ()) := by
  cases hPM : ProcessMessage env (GetUserContext db u 10) msg with
  | error e0 =>
    have hrun : ProcessUserMessage env db u c msg =
        { ret := .error e0, response := classifyFailedMsg, sends := [classifyFailedMsg],
          calls := [], db := db } := by
      unfold ProcessUserMessage
      simp only [hPM]
    have hret : (ProcessUserMessage env db u c msg).ret = .error e0 := by rw [hrun]
    refine ⟨fun e he => ?_, fun r hr _ => ?_⟩
    · left
      rw [hret] at he
      injection he with h
      rw [h]
    · exact absurd hr (by simp)
  | ok r0 =>
    have hrun := ProcessUserMessage_ok env db u c msg r0 hPM
    have hresp : (ProcessUserMessage env db u c msg).response =
        (executeAIAction env.cal r0).fst := by rw [hrun]
    cases hs : env.send (executeAIAction env.cal r0).fst with
    | error e1 =>
      have hret : (ProcessUserMessage env db u c msg).ret = .error e1 := by
        rw [hrun]
        show (match env.send (executeAIAction env.cal r0).fst with
          | Except.error e => (Except.error e : Except String Unit)
          | Except.ok _ => Except.ok ()) = Except.error e1
        rw [hs]
      refine ⟨fun e he => ?_, fun r hr hsend => ?_⟩
      · right
        rw [hret] at he
        injection he with h
        rw [hresp, hs, h]
      · rw [hresp, hs] at hsend
        exact absurd hsend (by simp)
    | ok u0 =>
      have hret : (ProcessUserMessage env db u c msg).ret = .ok () := by
        rw [hrun]
        show (match env.send (executeAIAction env.cal r0).fst with
          | Except.error e => (Except.error e : Except String Unit)
          | Except.ok _ => Except.ok ()) = Except.ok ()
        rw [hs]
      refine ⟨fun e he => ?_, fun r hr hsend => ?_⟩
      · rw [hret] at he
        exact absurd he (by simp)
      · exact hret

/-- Witness for `ProcessUserMessage_error_sources`: the first part applied to
the failing-classifier environment, the second to a run whose persistence
write fails but whose classification and send succeed. -/
def envPersistFail : PEnv :=
  { chat := fun _ _ => .ok (some rTomorrow, "raw"), now := 5,
    persist := .error "disk full", cal := calNoEvents, send := fun _ => .ok () }

theorem ProcessUserMessage_error_sources_witness :
    (ProcessMessage envClassifyFail (GetUserContext [] 1 10) "hi" =
        .error "OpenAI API error: boom" ∨
      envClassifyFail.send (ProcessUserMessage envClassifyFail [] 1 2 "hi").response =
        .error "OpenAI API error: boom") ∧
    (ProcessUserMessage envPersistFail [] 1 2 "hi").ret = .ok () :=
  ⟨(ProcessUserMessage_error_sources envClassifyFail [] 1 2 "hi").1 _ rfl,
   (ProcessUserMessage_error_sources envPersistFail [] 1 2 "hi").2
     (aiValidate rTomorrow) rfl rfl⟩

/-- `a ++ b ++ c = a ++ (b ++ c)` for strings. -/
theorem strAppend_assoc (a b c : String) : a ++ b ++ c = a ++ (b ++ c) := by
  obtain ⟨la⟩ := a
  obtain ⟨lb⟩ := b
  obtain ⟨lc⟩ := c
  show String.mk (la ++ lb ++ lc) = String.mk (la ++ (lb ++ lc))
  rw [List.append_assoc]

/-- Does `t` occur as the final segment of `s`? -/
def strEnds (s t : String) : Bool := t.data.isSuffixOf s.data

/-- A plain event whose rendered line is `• E (00:00 - 00:00)`. -/
def evPlain : CalendarEvent :=
  { ID := "e", Summary := "E", Description := "", Start := 0, EndT := 0, Location := "" }

/-- A gateway returning 25 events for every date. -/
def cal25 : CalendarOracle :=
  { getEvents := fun _ => .ok (List.replicate 25 evPlain),
    createEvent := fun _ _ _ _ _ => .ok (),
    updateEvent := fun _ _ _ _ _ _ => .ok (),
    deleteEvent := fun _ => .ok () }

/-- A single-action `getEvents` intent for `"today"`. -/
def rToday : AIResponse :=
  { Action := "getEvents", Message := "", EventID := "", EventTitle := "",
    EventDate := "today", EventTime := "", EventDesc := "", EventLoc := "",
    Actions := [] }

set_option maxRecDepth 40000 in
/-- C4 counterexample: with 25 events from the gateway, the single-action
response's final text is not `"... and 5 more events."` — the code's footer
carries an extra advice sentence — so the response cannot be the claimed
"first 20 events followed by a footer whose text is exactly
`... and 5 more events.`". -/
theorem truncation_footer_counterexample :
    strEnds (executeAIAction cal25 rToday).fst "... and 5 more events." = false ∧
    strEnds (executeAIAction cal25 rToday).fst
      ("\n... and 5 more events. " ++
        "Use a more specific date range to see fewer events.") = true := by
  constructor
  · decide
  · decide

/-- C4 (amended): with more than 20 events (so in particular with 25), the
single-action response lists exactly the first 20 events and ends with the
footer `"\n... and N more events. Use a more specific date range to see
fewer events."`; inside a multi-action block the cut is at 15 events with the
trailing note `"... and N more events.\n"`. -/
theorem truncation_footer (cal : CalendarOracle) :
    (∀ (r : AIResponse) (events : List CalendarEvent),
      r.Actions = [] → r.Action = "getEvents" →
      cal.getEvents r.EventDate = .ok events → 20 < events.length →
      (executeAIAction cal r).fst =
        "Events for " ++ r.EventDate ++ " (showing first " ++ natToStr 20 ++ " of " ++
          natToStr events.length ++ "):\n" ++
          strJoin ((events.take 20).map renderEventLine) ++
          ("\n... and " ++ natToStr (events.length - 20) ++
            " more events. Use a more specific date range to see fewer events.")) ∧
    (∀ (a : AIAction) (events : List CalendarEvent),
      a.Action = "getEvents" →
      cal.getEvents a.EventDate = .ok events → 15 < events.length →
      (execSubAction cal a).fst =
        "Events for " ++ a.EventDate ++ " (showing first " ++ natToStr 15 ++ " of " ++
          natToStr events.length ++ "):\n" ++
          strJoin ((events.take 15).map renderEventLine) ++
          ("... and " ++ natToStr (events.length - 15) ++ " more events.\n") ++ "\n") := by
  constructor
  · intro r events hA hg hget hgt
    have h0 : ¬(events.length = 0) := by omega
    simp [executeAIAction, hA, hg, hget, h0, hgt, strAppend_assoc]
  · intro a events hg hget hgt
    have h0 : ¬(events.length = 0) := by omega
    simp [execSubAction, hg, hget, h0, hgt, strAppend_assoc]

/-- Witness data for `truncation_footer`: the 25-event gateway applied to a
single-action intent and to a multi-action sub-intent. -/
def aFri : AIAction :=
  { Action := "getEvents", EventDate := "fri", EventTitle := "", EventTime := "",
    EventDesc := "", EventLoc := "" }

theorem truncation_footer_witness :
    (executeAIAction cal25 rToday).fst =
      "Events for " ++ rToday.EventDate ++ " (showing first " ++ natToStr 20 ++ " of " ++
        natToStr (List.replicate 25 evPlain).length ++ "):\n" ++
        strJoin (((List.replicate 25 evPlain).take 20).map renderEventLine) ++
        ("\n... and " ++ natToStr ((List.replicate 25 evPlain).length - 20) ++
          " more events. Use a more specific date range to see fewer events.") ∧
    (execSubAction cal25 aFri).fst =
      "Events for " ++ aFri.EventDate ++ " (showing first " ++ natToStr 15 ++ " of " ++
        natToStr (List.replicate 25 evPlain).length ++ "):\n" ++
        strJoin (((List.replicate 25 evPlain).take 15).map renderEventLine) ++
        ("... and " ++ natToStr ((List.replicate 25 evPlain).length - 15) ++
          " more events.\n") ++ "\n" :=
  ⟨(truncation_footer cal25).1 rToday (List.replicate 25 evPlain) rfl rfl rfl (by simp),
   (truncation_footer cal25).2 aFri (List.replicate 25 evPlain) rfl rfl (by simp)⟩

/-! ### The Telegram long-message splitter (`pkg/telegram/bot.go`)

Text is modelled as `List Char` (Go slices the UTF-8 byte string; the claims
speak of character counts, and the splitting logic is index arithmetic either
way). -/

/-- The continuation marker appended to every part but the last
(bot.go line 76). -/
def tgMarker : List Char := "\n\n[Message continued...]".data

/-- `strings.LastIndex(window, "\n")`: index of the last newline, if any. -/
def lastNewlineIdx : List Char → Option Nat
  | [] => none
  | c :: cs =>
    match lastNewlineIdx cs with
    | some i => some (i + 1)
    | none => if c = '\n' then some 0 else none

theorem lastNewlineIdx_lt_length (l : List Char) (i : Nat)
    (h : lastNewlineIdx l = some i) : i < l.length := by
  induction l generalizing i with
  | nil => simp [lastNewlineIdx] at h
  | cons c cs ih =>
    simp only [lastNewlineIdx] at h
    cases hx : lastNewlineIdx cs with
    | some j =>
      rw [hx] at h
      injection h with h
      have := ih j hx
      simp
      omega
    | none =>
      rw [hx] at h
      by_cases hc : c = '\n'
      · rw [if_pos hc] at h
        injection h with h
        simp
        omega
      · rw [if_neg hc] at h
        exact absurd h (by simp)

/-- The length of the next chunk taken from the remaining `text`
(bot.go lines 54–67): up to 4000 characters, pulled back to just after the
last newline of the window when that newline sits beyond the window's
midpoint, and only when more text follows the window. -/
def chunkLen (text : List Char) : Nat :=
  if text.length ≤ 4000 then text.length
  else
    match lastNewlineIdx (text.take 4000) with
    | some i => if 0 < i ∧ 2000 < i then i + 1 else 4000
    | none => 4000

theorem chunkLen_pos (text : List Char) (h : text ≠ []) : 0 < chunkLen text := by
  unfold chunkLen
  by_cases hle : text.length ≤ 4000
  · rw [if_pos hle]
    cases text with
    | nil => exact absurd rfl h
    | cons c cs => simp
  · rw [if_neg hle]
    cases hx : lastNewlineIdx (text.take 4000) with
    | some i =>
      by_cases hi : 0 < i ∧ 2000 < i
      · simp [hi]
      · simp [hi]
    | none => simp

theorem chunkLen_le_4000 (text : List Char) : chunkLen text ≤ 4000 := by
  unfold chunkLen
  by_cases hle : text.length ≤ 4000
  · rw [if_pos hle]
    exact hle
  · rw [if_neg hle]
    cases hx : lastNewlineIdx (text.take 4000) with
    | some i =>
      have hlt : i < (text.take 4000).length := lastNewlineIdx_lt_length _ i hx
      rw [List.length_take] at hlt
      show (if 0 < i ∧ 2000 < i then i + 1 else 4000) ≤ 4000
      by_cases hi : 0 < i ∧ 2000 < i
      · rw [if_pos hi]
        omega
      · rw [if_neg hi]
    | none => exact le_refl _

/-- The chunking loop of `Bot.sendLongMessage` (bot.go lines 50–70): split
the text into consecutive chunks. -/
def splitChunks (text : List Char) : List (List Char) :=
  if h : text = [] then []
  else
    text.take (chunkLen text) :: splitChunks (text.drop (chunkLen text))
termination_by text.length
decreasing_by
  rw [List.length_drop]
  have h1 : 0 < chunkLen text := chunkLen_pos text h
  have h2 : 0 < text.length := List.length_pos.mpr h
  omega

/-- The send loop of `Bot.sendLongMessage` (bot.go lines 73–87): each part is
transmitted with the continuation marker appended unless it is the last
(`i < len(messages)-1`). -/
def sendLoop (total : Nat) : Nat → List (List Char) → List (List Char)
  | _, [] => []
  | i, m :: rest =>
    (if i < total - 1 then m ++ tgMarker else m) :: sendLoop total (i + 1) rest

/-- `Bot.sendLongMessage` (bot.go lines 47–90): the texts actually handed to
the Telegram transport, in order. -/
def sendLongMessageTexts (text : List Char) : List (List Char) :=
  sendLoop (splitChunks text).length 0 (splitChunks text)

/-- `Bot.SendMessage` (bot.go lines 29–44): text over 4096 characters is
routed through the splitter, shorter text is sent as a single message. -/
def sendMessageTexts (text : List Char) : List (List Char) :=
  if text.length > 4096 then sendLongMessageTexts text else [text]

theorem splitChunks_nil : splitChunks [] = [] := by
  rw [splitChunks]
  simp

theorem catLists_splitChunks_aux :
    ∀ (fuel : Nat) (text : List Char), text.length ≤ fuel →
      catLists (splitChunks text) = text := by
  intro fuel
  induction fuel with
  | zero =>
    intro text h
    have hnil : text = [] := List.length_eq_zero.mp (Nat.le_zero.mp h)
    rw [hnil, splitChunks_nil]
    rfl
  | succ f ih =>
    intro text h
    by_cases hnil : text = []
    · rw [hnil, splitChunks_nil]
      rfl
    · rw [splitChunks, dif_neg hnil]
      show text.take (chunkLen text) ++ catLists (splitChunks (text.drop (chunkLen text))) = text
      rw [ih (text.drop (chunkLen text)) (by
        rw [List.length_drop]
        have h1 := chunkLen_pos text hnil
        have h2 := List.length_pos.mpr hnil
        omega)]
      exact List.take_append_drop _ _

theorem catLists_splitChunks (text : List Char) :
    catLists (splitChunks text) = text :=
  catLists_splitChunks_aux text.length text (le_refl _)

theorem splitChunks_le_aux :
    ∀ (fuel : Nat) (text : List Char), text.length ≤ fuel →
      ∀ c ∈ splitChunks text, c.length ≤ 4000 := by
  intro fuel
  induction fuel with
  | zero =>
    intro text h c hc
    have hnil : text = [] := List.length_eq_zero.mp (Nat.le_zero.mp h)
    rw [hnil, splitChunks_nil] at hc
    exact absurd hc (by simp)
  | succ f ih =>
    intro text h c hc
    by_cases hnil : text = []
    · rw [hnil, splitChunks_nil] at hc
      exact absurd hc (by simp)
    · rw [splitChunks, dif_neg hnil] at hc
      rcases List.mem_cons.mp hc with hc | hc
      · rw [hc, List.length_take]
        have := chunkLen_le_4000 text
        omega
      · refine ih (text.drop (chunkLen text)) (by
          rw [List.length_drop]
          have h1 := chunkLen_pos text hnil
          have h2 := List.length_pos.mpr hnil
          omega) c hc

theorem splitChunks_le (text : List Char) :
    ∀ c ∈ splitChunks text, c.length ≤ 4000 :=
  splitChunks_le_aux text.length text (le_refl _)

theorem sendLoop_eq (l : List (List Char)) :
    ∀ (i total : Nat), i + l.length = total →
      sendLoop total i l =
        l.dropLast.map (fun m => m ++ tgMarker) ++ l.drop (l.length - 1) := by
  induction l with
  | nil => intro i total _; rfl
  | cons m rest ih =>
    intro i total htot
    cases rest with
    | nil =>
      have : ¬(i < total - 1) := by
        simp at htot
        omega
      simp [sendLoop, this]
    | cons r rs =>
      have hlt : i < total - 1 := by
        simp at htot
        omega
      have hrec := ih (i + 1) total (by simp at htot ⊢; omega)
      show (if i < total - 1 then m ++ tgMarker else m) :: sendLoop total (i + 1) (r :: rs) = _
      rw [if_pos hlt, hrec]
      simp [List.dropLast_cons₂]

/-- C10: for text longer than 4096 characters, `SendMessage` routes through
the splitter, whose chunks concatenate back to the original text exactly,
are each at most 4000 characters long, and are transmitted with the
`"\n\n[Message continued...]"` marker appended to every part except the
last. -/
theorem sendMessage_split_spec (text : List Char) (h : 4096 < text.length) :
    catLists (splitChunks text) = text ∧
    (∀ c ∈ splitChunks text, c.length ≤ 4000) ∧
    sendMessageTexts text =
      (splitChunks text).dropLast.map (fun m => m ++ tgMarker) ++
        (splitChunks text).drop ((splitChunks text).length - 1) := by
  refine ⟨catLists_splitChunks text, splitChunks_le text, ?_⟩
  unfold sendMessageTexts
  rw [if_pos h]
  exact sendLoop_eq _ 0 _ (Nat.zero_add _)

theorem sendMessage_split_spec_witness :
    catLists (splitChunks (List.replicate 4097 'x')) = List.replicate 4097 'x' ∧
    (∀ c ∈ splitChunks (List.replicate 4097 'x'), c.length ≤ 4000) ∧
    sendMessageTexts (List.replicate 4097 'x') =
      (splitChunks (List.replicate 4097 'x')).dropLast.map (fun m => m ++ tgMarker) ++
        (splitChunks (List.replicate 4097 'x')).drop
          ((splitChunks (List.replicate 4097 'x')).length - 1) :=
  sendMessage_split_spec (List.replicate 4097 'x')
    (by rw [List.length_replicate]; omega)

/-! ### Round trip of the numeral codecs -/

theorem decDigit_digitChar (d : Nat) (h : d < 10) : decDigit (digitChar d) = some d := by
  interval_cases d <;> rfl

theorem digitChar_ne_minus (d : Nat) (h : d < 10) : ¬(digitChar d = '-') := by
  interval_cases d <;> decide

theorem decNatAux_append (l1 l2 : List Char) (acc : Nat) :
    decNatAux acc (l1 ++ l2) =
      match decNatAux acc l1 with
      | some a => decNatAux a l2
      | none => none := by
  induction l1 generalizing acc with
  | nil => rfl
  | cons c cs ih =>
    show decNatAux acc (c :: (cs ++ l2)) = _
    cases hd : decDigit c with
    | none => simp [decNatAux, hd]
    | some d => simp [decNatAux, hd, ih]

theorem encNatAux_ne_nil (fuel n : Nat) (h : 0 < fuel) : encNatAux fuel n ≠ [] := by
  cases fuel with
  | zero => omega
  | succ f =>
    show (if n < 10 then [digitChar n]
      else encNatAux f (n / 10) ++ [digitChar (n % 10)]) ≠ []
    by_cases hn : n < 10
    · simp [hn]
    · simp [hn]

theorem decNatAux_encNatAux :
    ∀ (fuel n acc : Nat), n < fuel →
      decNatAux acc (encNatAux fuel n) =
        some (acc * 10 ^ (encNatAux fuel n).length + n) := by
  intro fuel
  induction fuel with
  | zero => intro n acc h; omega
  | succ f ih =>
    intro n acc h
    by_cases hn : n < 10
    · rw [show encNatAux (f + 1) n = [digitChar n] from by simp [encNatAux, hn]]
      simp [decNatAux, decDigit_digitChar n hn]
    · have hrec : n / 10 < f := by
        have h1 : n / 10 < n := Nat.div_lt_self (by omega) (by omega)
        omega
      rw [show encNatAux (f + 1) n = encNatAux f (n / 10) ++ [digitChar (n % 10)] from by
        simp [encNatAux, hn]]
      rw [decNatAux_append, ih (n / 10) acc hrec]
      have hm : n % 10 < 10 := Nat.mod_lt _ (by omega)
      show decNatAux (acc * 10 ^ (encNatAux f (n / 10)).length + n / 10)
        [digitChar (n % 10)] = _
      simp only [decNatAux, decDigit_digitChar _ hm, List.length_append,
        List.length_cons, List.length_nil, Option.some.injEq]
      rw [pow_succ, ← mul_assoc]
      generalize acc * 10 ^ (encNatAux f (n / 10)).length = A
      omega

theorem decNat_encNat (n : Nat) : decNat (encNat n) = some n := by
  have h := decNatAux_encNatAux (n + 1) n 0 (by omega)
  have hne := encNatAux_ne_nil (n + 1) n (by omega)
  show decNat (encNatAux (n + 1) n) = some n
  cases hl : encNatAux (n + 1) n with
  | nil => exact absurd hl hne
  | cons c cs =>
    rw [hl] at h
    show decNatAux 0 (c :: cs) = some n
    rw [h]
    simp

theorem encNatAux_head (fuel : Nat) :
    ∀ n, n < fuel → ∃ d rest, d < 10 ∧ encNatAux fuel n = digitChar d :: rest := by
  induction fuel with
  | zero => intro n h; omega
  | succ f ih =>
    intro n h
    by_cases hn : n < 10
    · exact ⟨n, [], hn, by simp [encNatAux, hn]⟩
    · have hrec : n / 10 < f := by
        have h1 : n / 10 < n := Nat.div_lt_self (by omega) (by omega)
        omega
      obtain ⟨d, rest, hd, hl⟩ := ih (n / 10) hrec
      exact ⟨d, rest ++ [digitChar (n % 10)], hd, by simp [encNatAux, hn, hl]⟩

theorem decInt_encInt (i : Int) : decInt (encInt i) = some i := by
  by_cases hneg : i < 0
  · unfold encInt
    rw [if_pos hneg]
    show (if ('-' : Char) = '-' then (decNat (encNat i.natAbs)).map (fun n => -(n : Int))
      else (decNat ('-' :: encNat i.natAbs)).map (fun n => (n : Int))) = some i
    rw [if_pos rfl, decNat_encNat]
    show some (-(i.natAbs : Int)) = some i
    simp only [Option.some.injEq]
    omega
  · unfold encInt
    rw [if_neg hneg]
    obtain ⟨d, rest, hd, hl⟩ := encNatAux_head (i.toNat + 1) i.toNat (by omega)
    show decInt (encNatAux (i.toNat + 1) i.toNat) = some i
    rw [hl]
    show (if digitChar d = '-' then (decNat rest).map (fun n => -(n : Int))
      else (decNat (digitChar d :: rest)).map (fun n => (n : Int))) = some i
    rw [if_neg (digitChar_ne_minus d hd), ← hl]
    show (decNat (encNat i.toNat)).map (fun n => (n : Int)) = some i
    rw [decNat_encNat]
    show some ((i.toNat : Int)) = some i
    simp only [Option.some.injEq]
    omega

/-! ### Durable storage (`Database.saveInteractions` / `loadInteractions`)

`encoding/json` is the Go standard library; it is modelled at the JSON-value
level: `saveInteractions` produces the JSON document that `json.MarshalIndent`
writes (an object keyed by the decimal user id, each interaction an object
whose `action` field is omitted when empty, the timestamp serialised as
text), and `loadInteractions` is the corresponding `json.Unmarshal` by field
name.  The `time.Time` instant is modelled as a `Nat` tick whose textual
serialisation is its decimal rendering. -/

/-- A JSON document. -/
inductive Json where
  | null
  | str (s : String)
  | num (n : Int)
  | arr (items : List Json)
  | obj (fields : List (String × Json))

/-- Field lookup in a JSON object (`json.Unmarshal` matches struct fields by
name). -/
def jLookup (fields : List (String × Json)) (k : String) : Option Json :=
  match fields with
  | [] => none
  | (k2, v) :: rest => if k2 = k then some v else jLookup rest k

/-- `json.Marshal` of one `types.Interaction` (field tags from
`pkg/types/types.go` lines 40–46; `action` carries `omitempty`). -/
def interactionToJson (i : Interaction) : Json :=
  .obj ([("user_id", .num i.UserID),
         ("timestamp", .str (natToStr i.Timestamp)),
         ("user_message", .str i.UserMessage),
         ("ai_response", .str i.AIResponse)] ++
        (if i.Action = "" then [] else [("action", .str i.Action)]))

/-- `json.Unmarshal` of one `types.Interaction`: by-name field lookup; a
missing `action` field yields the empty tag. -/
def interactionFromJson : Json → Option Interaction
  | .obj fields =>
    match jLookup fields "user_id" with
    | some (.num uid) =>
      match jLookup fields "timestamp" with
      | some (.str ts) =>
        match decNat ts.data with
        | some t =>
          match jLookup fields "user_message" with
          | some (.str um) =>
            match jLookup fields "ai_response" with
            | some (.str ar) =>
              match jLookup fields "action" with
              | none =>
                some { UserID := uid, Timestamp := t, UserMessage := um,
                       AIResponse := ar, Action := "" }
              | some (.str a) =>
                some { UserID := uid, Timestamp := t, UserMessage := um,
                       AIResponse := ar, Action := a }
              | some _ => none
            | _ => none
          | _ => none
        | none => none
      | _ => none
    | _ => none
  | _ => none

/-- `Database.saveInteractions` (part_000 lines 154–168): the JSON document
written to disk — the user table as an object keyed by the decimal user
id. -/
def saveInteractions (m : DBMap) : Json :=
  .obj (m.map (fun p => (⟨encInt p.1⟩, .arr (p.2.map interactionToJson))))

/-- All-or-nothing traversal (`json.Unmarshal` fails on the first malformed
element). -/
def optMapM (f : α → Option β) : List α → Option (List β)
  | [] => some []
  | x :: xs =>
    match f x with
    | none => none
    | some y =>
      match optMapM f xs with
      | none => none
      | some ys => some (y :: ys)

/-- Decode one user entry of the stored table. -/
def loadEntry (p : String × Json) : Option (Int × List Interaction) :=
  match decInt p.1.data with
  | none => none
  | some k =>
    match p.2 with
    | .arr items =>
      match optMapM interactionFromJson items with
      | none => none
      | some xs => some (k, xs)
    | _ => none

/-- `Database.loadInteractions` (part_000 lines 131–151): decode the stored
JSON document back into the user table. -/
def loadInteractions : Json → Option DBMap
  | .obj fields => optMapM loadEntry fields
  | _ => none

theorem interactionFromJson_toJson (i : Interaction) :
    interactionFromJson (interactionToJson i) = some i := by
  have hts : decNat (natToStr i.Timestamp).data = some i.Timestamp :=
    decNat_encNat i.Timestamp
  by_cases ha : i.Action = ""
  · simp [interactionToJson, interactionFromJson, jLookup, ha, hts]
    rw [← ha]
  · simp [interactionToJson, interactionFromJson, jLookup, ha, hts]

theorem optMapM_interactions (xs : List Interaction) :
    optMapM interactionFromJson (xs.map interactionToJson) = some xs := by
  induction xs with
  | nil => rfl
  | cons x rest ih =>
    simp [optMapM, interactionFromJson_toJson, ih]

theorem loadEntry_save (k : Int) (xs : List Interaction) :
    loadEntry (⟨encInt k⟩, .arr (xs.map interactionToJson)) = some (k, xs) := by
  unfold loadEntry
  show (match decInt (encInt k) with
    | none => none
    | some k =>
      match optMapM interactionFromJson (xs.map interactionToJson) with
      | none => none
      | some xs => some (k, xs)) = some (k, xs)
  rw [decInt_encInt, optMapM_interactions]

/-- C8: serialising the user-to-interaction-list table to the durable JSON
document and deserialising it back yields the identical table, for every
table (in particular for every table reachable by store operations). -/
theorem save_load_roundtrip (m : DBMap) :
    loadInteractions (saveInteractions m) = some m := by
  show optMapM loadEntry (m.map
    (fun p => (⟨encInt p.1⟩, Json.arr (p.2.map interactionToJson)))) = some m
  induction m with
  | nil => rfl
  | cons p rest ih =>
    obtain ⟨k, xs⟩ := p
    simp [optMapM, loadEntry_save, ih]
